import Mathlib

/-!
Verification of the receipt text parsing engine
(`cloud_function/receipt_extractor/parser.py`).

The parser is embedded shallowly: every Python function becomes a total,
executable Lean function over `List Char` (Python `str`), translated from the
source.  Monetary amounts are represented exactly in integer cents: every
amount the parser accepts comes from a `\d+[.,]\d{2}` token, whose Python
`float` value is positive iff its cent value is positive, and the concrete
totals compared in the spec (e.g. 11.62) correspond to exact cent values
(1162).  Python character predicates (`str.strip`, `str.upper`, `str.lower`,
`str.isupper`, regex `\s`, `\d`) are modelled over the character repertoire
receipts use: ASCII plus the Finnish letters å, ä, ö (and their capitals).
-/

/-- Whitespace as stripped by Python `str.strip` and matched by regex `\s`
(ASCII part of the Unicode whitespace classes). -/
def isWsChar (c : Char) : Bool :=
  c = ' ' || c = '\t' || c = '\n' || c = '\r' || c = '\x0b' || c = '\x0c'

/-- Python `str.upper`, character-wise, for ASCII plus å/ä/ö. -/
def pyCharUpper (c : Char) : Char :=
  if c = 'å' then 'Å' else if c = 'ä' then 'Ä' else if c = 'ö' then 'Ö'
  else c.toUpper

/-- Python `str.lower`, character-wise, for ASCII plus Å/Ä/Ö. -/
def pyCharLower (c : Char) : Char :=
  if c = 'Å' then 'å' else if c = 'Ä' then 'ä' else if c = 'Ö' then 'ö'
  else c.toLower

/-- Python `str.upper` on a whole string. -/
def pyUpper (s : List Char) : List Char := s.map pyCharUpper

/-- Python `str.lower` on a whole string. -/
def pyLower (s : List Char) : List Char := s.map pyCharLower

/-- Python `str.strip`: drop leading and trailing whitespace. -/
def pyStrip (s : List Char) : List Char :=
  ((s.dropWhile isWsChar).reverse.dropWhile isWsChar).reverse

/-- Cased letters of the modelled repertoire (ASCII letters and å/ä/ö forms). -/
def isCasedChar (c : Char) : Bool :=
  c.isAlpha || c = 'å' || c = 'ä' || c = 'ö' || c = 'Å' || c = 'Ä' || c = 'Ö'

/-- Lower-case cased letters of the modelled repertoire. -/
def isLowerCasedChar (c : Char) : Bool :=
  (c.isLower || c = 'å' || c = 'ä' || c = 'ö')

/-- Python `str.isupper`: at least one cased character and no lower-case
cased character. -/
def pyIsUpper (s : List Char) : Bool :=
  s.any isCasedChar && s.all (fun c => !isLowerCasedChar c)

/-- Substring test, Python `needle in hay`. -/
def containsSub (needle : List Char) : List Char → Bool
  | [] => needle.isEmpty
  | c :: cs => needle.isPrefixOf (c :: cs) || containsSub needle cs

/-- Length of the maximal prefix run of characters satisfying `p`
(the greedy extent of a regex character-class repetition). -/
def runLen (p : Char → Bool) : List Char → Nat
  | [] => 0
  | c :: cs => if p c then runLen p cs + 1 else 0

/-- Numeric value of a digit string. -/
def digitsVal (ds : List Char) : Nat :=
  ds.foldl (fun n c => n * 10 + (c.toNat - 48)) 0

/-- Split a character list at every newline character
(Python `str.split` with separator `"\n"`). -/
def splitLines : List Char → List (List Char)
  | [] => [[]]
  | c :: cs =>
    let r := splitLines cs
    if c = '\n' then [] :: r
    else
      match r with
      | [] => [[c]]
      | h :: t => (c :: h) :: t

/-- Python `normalize_text`: replace every carriage return by a newline,
split on newlines, strip each line, keep the non-empty ones. -/
def normalize_text (text : List Char) : List (List Char) :=
  ((splitLines (text.map (fun c => if c = '\r' then '\n' else c))).map
    pyStrip).filter (fun l => !l.isEmpty)

/-- Take exactly `k` leading digits: `Option` of the digits and the rest
(the regex piece `\d` repeated exactly `k` times). -/
def takeDigits (k : Nat) (cs : List Char) : Option (List Char × List Char) :=
  let ds := cs.take k
  if ds.length = k && ds.all Char.isDigit then some (ds, cs.drop k) else none

/-- Tail of `DATE_RE` after the month: a literal dot then a 4-digit year. -/
def dotYear (r : List Char) : Option (List Char) :=
  match r with
  | '.' :: r3 =>
    match takeDigits 4 r3 with
    | some (ys, _) => some ys
    | none => none
  | _ => none

/-- Month-and-year part of `DATE_RE` (`(\d{1,2})\.(\d{4})`), with the greedy
2-digit month tried before the 1-digit month. -/
def monthYear (r : List Char) : Option (List Char × List Char) :=
  match takeDigits 2 r with
  | some (ms, r2) =>
    (match dotYear r2 with
     | some ys => some (ms, ys)
     | none =>
       match takeDigits 1 r with
       | some (ms1, r1) =>
         (match dotYear r1 with
          | some ys => some (ms1, ys)
          | none => none)
       | none => none)
  | none =>
    match takeDigits 1 r with
    | some (ms1, r1) =>
      (match dotYear r1 with
       | some ys => some (ms1, ys)
       | none => none)
    | none => none

/-- Match `DATE_RE` (`(\d{1,2})\.(\d{1,2})\.(\d{4})`) anchored at the head of
`cs`; returns the captured (day, month, year) digit groups.  The greedy
2-digit day is tried before the 1-digit day, backtracking as Python does. -/
def dateMatchAt (cs : List Char) : Option (List Char × List Char × List Char) :=
  match takeDigits 2 cs with
  | some (ds, r) =>
    (match (match r with | '.' :: r1 => monthYear r1 | _ => none) with
     | some (ms, ys) => some (ds, ms, ys)
     | none =>
       match takeDigits 1 cs with
       | some (ds1, r1) =>
         (match (match r1 with | '.' :: r2 => monthYear r2 | _ => none) with
          | some (ms, ys) => some (ds1, ms, ys)
          | none => none)
       | none => none)
  | none =>
    match takeDigits 1 cs with
    | some (ds1, r1) =>
      (match (match r1 with | '.' :: r2 => monthYear r2 | _ => none) with
       | some (ms, ys) => some (ds1, ms, ys)
       | none => none)
    | none => none

/-- Python `DATE_RE.search`: leftmost match of the date pattern. -/
def dateSearch : List Char → Option (List Char × List Char × List Char)
  | [] => none
  | c :: cs =>
    match dateMatchAt (c :: cs) with
    | some g => some g
    | none => dateSearch cs

/-- Scan lines in order for the first `DATE_RE` match. -/
def dateScan : List (List Char) → Option (List Char × List Char × List Char)
  | [] => none
  | l :: ls =>
    match dateSearch l with
    | some g => some g
    | none => dateScan ls

/-- Python `str.zfill(2)`: left-pad with zeros to length 2. -/
def zfill2 (s : List Char) : List Char :=
  List.replicate (2 - s.length) '0' ++ s

/-- Format the captured groups as Python does:
year, a dash, the zero-padded month, a dash, the zero-padded day. -/
def formatDate (g : List Char × List Char × List Char) : List Char :=
  g.2.2 ++ '-' :: zfill2 g.2.1 ++ '-' :: zfill2 g.1

/-- Python `extract_date`: first `DATE_RE` match within the first 20 lines,
formatted `YYYY-MM-DD`; empty string when none. -/
def extract_date (lines : List (List Char)) : List Char :=
  match dateScan (lines.take 20) with
  | some g => formatDate g
  | none => []

/-- Characters accepted by the tail class `[\s\d\-]` of the phone-number
cleanup patterns. -/
def isPhoneTail (c : Char) : Bool :=
  isWsChar c || c.isDigit || c = '-'

/-- Length of the match of `\s*LBL\.?\s*\(?\d+\)?[\s\d\-]+` (case-insensitive,
`LBL` given in lower case) anchored at the head of `cs`, with the greedy
matching and backtracking Python performs; `none` when there is no match here. -/
def phoneMatchLen (lbl : List Char) (cs : List Char) : Option Nat :=
  let w1 := runLen isWsChar cs
  let cs1 := cs.drop w1
  if (cs1.take lbl.length).map pyCharLower = lbl then
    let cs2 := cs1.drop lbl.length
    let dot := if cs2.head? = some '.' then 1 else 0
    let cs3 := cs2.drop dot
    let w2 := runLen isWsChar cs3
    let cs4 := cs3.drop w2
    let par := if cs4.head? = some '(' then 1 else 0
    let cs5 := cs4.drop par
    let m := runLen Char.isDigit cs5
    if m = 0 then none
    else
      let cs6 := cs5.drop m
      let base := w1 + lbl.length + dot + w2 + par + m
      match cs6.head? with
      | some ')' =>
        let r := runLen isPhoneTail (cs6.drop 1)
        if 1 ≤ r then some (base + 1 + r)
        else if 2 ≤ m then some base else none
      | _ =>
        let r := runLen isPhoneTail cs6
        if 1 ≤ r then some (base + r)
        else if 2 ≤ m then some base else none
  else none

/-- Python `re.sub(pat, "", s)` driver over a positional matcher `f`:
scan left to right, delete each leftmost non-overlapping match and continue
after it.  The fuel argument (initially the string length) makes the scan
structurally recursive; every matcher used consumes at least one character. -/
def subScanFuel (f : List Char → Option Nat) : Nat → List Char → List Char
  | 0, _ => []
  | _, [] => []
  | fuel + 1, c :: cs =>
    match f (c :: cs) with
    | some n => subScanFuel f fuel (cs.drop (n - 1))
    | none => c :: subScanFuel f fuel cs

/-- Delete every match of the matcher `f`, as Python `re.sub` with empty
replacement. -/
def subScan (f : List Char → Option Nat) (s : List Char) : List Char :=
  subScanFuel f s.length s

/-- Letters of the postal-code city class `[A-ZÅÄÖa-zåäö\s]` (letter part). -/
def isPostalLetter (c : Char) : Bool :=
  c.isAlpha || c = 'Å' || c = 'Ä' || c = 'Ö' || c = 'å' || c = 'ä' || c = 'ö'

/-- Test whether `,?\s*\d{5}\s+[A-ZÅÄÖa-zåäö\s]+$` matches the whole of `cs`
(the postal-code-and-city suffix pattern of the merchant cleanup). -/
def postalMatches (cs : List Char) : Bool :=
  let comma := if cs.head? = some ',' then 1 else 0
  let cs1 := cs.drop comma
  let w := runLen isWsChar cs1
  let cs2 := cs1.drop w
  ((cs2.take 5).length = 5 && (cs2.take 5).all Char.isDigit) &&
    (match cs2.drop 5 with
     | r :: rs =>
       isWsChar r && !rs.isEmpty && rs.all (fun c => isPostalLetter c || isWsChar c)
     | [] => false)

/-- Python `re.sub(r',?\s*\d{5}\s+[A-ZÅÄÖa-zåäö\s]+$', '', s)`: the match is
anchored at the end, so deleting the leftmost match truncates the string. -/
def subPostal : List Char → List Char
  | [] => []
  | c :: cs => if postalMatches (c :: cs) then [] else c :: subPostal cs

/-- Apply one phone-number cleanup substitution
(`re.sub(r'\s*LBL\.?\s*\(?\d+\)?[\s\d\-]+', '', s, flags=re.IGNORECASE)`). -/
def subPhone (lbl : List Char) (s : List Char) : List Char :=
  subScan (phoneMatchLen lbl) s

/-- The merchant cleanup applied in every branch of `extract_merchant`:
strip `Puh.`/`Tel.` phone fragments, a trailing postal-code-and-city suffix,
and surrounding whitespace. -/
def cleanMerchant (l : List Char) : List Char :=
  pyStrip (subPostal (subPhone "tel".data (subPhone "puh".data l)))

/-- A line is selected by the merchant loop when it contains `"market"`
case-insensitively, or is entirely upper case and longer than 5 characters. -/
def merchantLineTest (l : List Char) : Bool :=
  containsSub "market".data (pyLower l) || (pyIsUpper l && decide (5 < l.length))

/-- The merchant selection loop over (at most) the first 10 lines; the two
source branches differ only in which test fired, both return the cleaned
line, so the scan returns the selected line. -/
def merchantScan : List (List Char) → Option (List Char)
  | [] => none
  | l :: ls =>
    if containsSub "market".data (pyLower l) then some l
    else if pyIsUpper l && decide (5 < l.length) then some l
    else merchantScan ls

/-- Python `extract_merchant`: first matching line of the first 10, cleaned;
otherwise the cleaned first line; empty string for an empty sequence. -/
def extract_merchant (lines : List (List Char)) : List Char :=
  match merchantScan (lines.take 10) with
  | some l => cleanMerchant l
  | none =>
    match lines with
    | [] => []
    | l0 :: _ => cleanMerchant l0

/-- The total-marker test of `extract_total`:
`"YHTEENSÄ" in l.upper() or "TOTAL" in l.upper() or "SUMMA" in l.upper()`. -/
def isTotalMarker (l : List Char) : Bool :=
  containsSub "YHTEENSÄ".data (pyUpper l) || containsSub "TOTAL".data (pyUpper l)
    || containsSub "SUMMA".data (pyUpper l)

/-- Python `TOTAL_RE.search(l)` (`^YHTEENSÄ\s+(\d+[.,]\d{2})`, case-insensitive,
anchored at the start by `^`): the captured amount in cents, if any. -/
def totalSameLine (l : List Char) : Option Nat :=
  if (l.take 8).map pyCharUpper = "YHTEENSÄ".data then
    let r := l.drop 8
    let w := runLen isWsChar r
    if w = 0 then none
    else
      let r1 := r.drop w
      let m := runLen Char.isDigit r1
      if m = 0 then none
      else
        match r1.drop m with
        | s :: d1 :: d2 :: _ =>
          if (s = '.' || s = ',') && d1.isDigit && d2.isDigit then
            some (digitsVal (r1.take m) * 100 + digitsVal [d1, d2])
          else none
        | _ => none
  else none

/-- Full match of `^(\d+[.,]\d{2})$`: a line that is exactly a standalone
2-decimal amount; its value in cents. -/
def standaloneAmountCents (l : List Char) : Option Nat :=
  let m := runLen Char.isDigit l
  if m = 0 then none
  else
    match l.drop m with
    | [s, d1, d2] =>
      if (s = '.' || s = ',') && d1.isDigit && d2.isDigit then
        some (digitsVal (l.take m) * 100 + digitsVal [d1, d2])
      else none
    | _ => none

/-- Full match of `^(\d+[.,]\d{2})\s*$` (the lookahead pattern of
`extract_total`): a standalone amount possibly followed by whitespace. -/
def standaloneAmountWs (l : List Char) : Option Nat :=
  let m := runLen Char.isDigit l
  if m = 0 then none
  else
    match l.drop m with
    | s :: d1 :: d2 :: rest =>
      if (s = '.' || s = ',') && d1.isDigit && d2.isDigit && rest.all isWsChar then
        some (digitsVal (l.take m) * 100 + digitsVal [d1, d2])
      else none
    | _ => none

/-- The lookahead loop of `extract_total`: the first standalone amount among
the next `k` lines (`k = 4` in the source: `range(i + 1, min(i + 5, len))`). -/
def lookaheadAmount : Nat → List (List Char) → Option Nat
  | 0, _ => none
  | _, [] => none
  | k + 1, l :: ls =>
    match standaloneAmountWs l with
    | some a => some a
    | none => lookaheadAmount k ls

/-- Python `extract_total`: scan for a marker line; resolve it on the same
line or by 4-line lookahead; otherwise keep scanning; `None` when nothing
resolves. -/
def extract_total : List (List Char) → Option Nat
  | [] => none
  | l :: ls =>
    if isTotalMarker l then
      match totalSameLine l with
      | some a => some a
      | none =>
        match lookaheadAmount 4 ls with
        | some a => some a
        | none => extract_total ls
    else extract_total ls

/-- One emitted line item: name and amount (Python float, in exact cents). -/
structure LineItem where
  name : List Char
  amount : Nat
deriving DecidableEq

/-- Upper-case ASCII letter, the class `[A-Z]` of the transaction-code
pattern. -/
def isAZ (c : Char) : Bool := 'A' ≤ c && c ≤ 'Z'

/-- Match of `[A-Z]\d{3,}|M\d{6}` anchored at the head of `cs` (only its
existence matters to the parser). -/
def txnCodeAt (cs : List Char) : Bool :=
  (match cs with
   | c :: d1 :: d2 :: d3 :: _ => isAZ c && d1.isDigit && d2.isDigit && d3.isDigit
   | _ => false) ||
  (match cs with
   | c :: d1 :: d2 :: d3 :: d4 :: d5 :: d6 :: _ =>
     c = 'M' && d1.isDigit && d2.isDigit && d3.isDigit && d4.isDigit &&
       d5.isDigit && d6.isDigit
   | _ => false)

/-- Python `re.search(r'[A-Z]\d{3,}|M\d{6}', name)`: the transaction-code
pattern occurs somewhere in the name. -/
def hasTxnCode : List Char → Bool
  | [] => false
  | c :: cs => txnCodeAt (c :: cs) || hasTxnCode cs

/-- Match of `\s+\d+[.,]\d+L[^\s]*` (case-insensitive `L`) anchored at the
head of `cs`: a volume/size OCR artifact such as `" 0,35L-1L"`; returns the
greedy match length. -/
def volMatchLen (cs : List Char) : Option Nat :=
  let w := runLen isWsChar cs
  if w = 0 then none
  else
    let cs1 := cs.drop w
    let m := runLen Char.isDigit cs1
    if m = 0 then none
    else
      match cs1.drop m with
      | s :: cs3 =>
        if s = '.' || s = ',' then
          let k := runLen Char.isDigit cs3
          if k = 0 then none
          else
            match cs3.drop k with
            | c :: cs5 =>
              if c = 'L' || c = 'l' then
                some (w + m + 1 + k + 1 + runLen (fun c => !isWsChar c) cs5)
              else none
            | [] => none
        else none
      | [] => none

/-- First cleanup of the two-line item name:
`re.sub(r'\s+\d+[.,]\d+L[^\s]*', '', name, flags=re.IGNORECASE)`. -/
def stripVolume (s : List Char) : List Char :=
  subScan volMatchLen s

/-- Test whether `\s+\d+[.,]\d{1,2}$` matches the whole of `cs` (a trailing
misread volume such as `" 0,51"`). -/
def trailDecMatches (cs : List Char) : Bool :=
  let w := runLen isWsChar cs
  (1 ≤ w) &&
    (let cs1 := cs.drop w
     let m := runLen Char.isDigit cs1
     (1 ≤ m) &&
       (match cs1.drop m with
        | s :: ds =>
          (s = '.' || s = ',') && ds.all Char.isDigit &&
            (ds.length = 1 || ds.length = 2)
        | [] => false))

/-- Second cleanup of the two-line item name:
`re.sub(r'\s+\d+[.,]\d{1,2}$', '', name)`; the match is anchored at the end,
so deleting the leftmost match truncates the string. -/
def stripTrailingDecimal : List Char → List Char
  | [] => []
  | c :: cs =>
    if trailDecMatches (c :: cs) then [] else c :: stripTrailingDecimal cs

/-- The fully cleaned two-line item name: strip, volume-artifact removal,
trailing-decimal removal, strip. -/
def cleanName (l : List Char) : List Char :=
  pyStrip (stripTrailingDecimal (stripVolume (pyStrip l)))

/-- The two-line branch rejection: the cleaned name starts (case-insensitively)
with one of `ALV`, `KORTTI`, `PLUSSA`, `BONUS`, `PANTTI`. -/
def badPrefix5 (name : List Char) : Bool :=
  "ALV".data.isPrefixOf (pyUpper name) || "KORTTI".data.isPrefixOf (pyUpper name)
    || "PLUSSA".data.isPrefixOf (pyUpper name)
    || "BONUS".data.isPrefixOf (pyUpper name)
    || "PANTTI".data.isPrefixOf (pyUpper name)

/-- The same-line fallback rejection: the name starts (case-insensitively)
with one of `ALV`, `KORTTI`, `PLUSSA`, `BONUS` (the source omits `PANTTI`
in this branch). -/
def badPrefix4 (name : List Char) : Bool :=
  "ALV".data.isPrefixOf (pyUpper name) || "KORTTI".data.isPrefixOf (pyUpper name)
    || "PLUSSA".data.isPrefixOf (pyUpper name)
    || "BONUS".data.isPrefixOf (pyUpper name)

/-- Python `ITEM_PRICE_RE.match(l)` (`(.*?)(\d+[.,]\d{2})$`): the lazy first
group takes the shortest prefix whose remainder is exactly a standalone
amount; returns (group 1, amount in cents). -/
def itemPriceMatch : List Char → Option (List Char × Nat)
  | [] => none
  | c :: cs =>
    match standaloneAmountCents (c :: cs) with
    | some a => some ([], a)
    | none =>
      match itemPriceMatch cs with
      | some (n, a) => some (c :: n, a)
      | none => none

/-- A separator line: `set(l) == {"-"}`, i.e. non-empty and all dashes. -/
def isDashLine (l : List Char) : Bool :=
  !l.isEmpty && l.all (fun c => c = '-')

/-- The same-line fallback step of `extract_items`: items contributed by the
current line alone (the cursor advances by 1 in every case). -/
def sameLineStep (l : List Char) : List LineItem :=
  match itemPriceMatch l with
  | some (n, a) =>
    if hasTxnCode (pyStrip n) then []
    else if !badPrefix4 (pyStrip n) && decide (3 ≤ (pyStrip n).length) then
      [⟨pyStrip n, a⟩]
    else []
  | none => []

/-- Python `extract_items`: the cursor state machine, as structural recursion
on the line list (advancing the cursor by 2 consumes two list cells; a lone
final line can only take the same-line fallback and then the loop ends). -/
def extract_items : List (List Char) → List LineItem
  | [] => []
  | [l] =>
    if "YHTEENSÄ".data.isPrefixOf l then []
    else if isDashLine l then []
    else if containsSub "CARD TRANSACTION".data l then []
    else sameLineStep l
  | l :: next :: rest2 =>
    if "YHTEENSÄ".data.isPrefixOf l then []
    else if isDashLine l then extract_items (next :: rest2)
    else if containsSub "CARD TRANSACTION".data l then []
    else
      match standaloneAmountCents (pyStrip next) with
      | some amt =>
        if hasTxnCode (pyStrip l) then extract_items rest2
        else if badPrefix5 (cleanName l) then extract_items rest2
        else if decide (3 ≤ (cleanName l).length) && decide (0 < amt) then
          ⟨cleanName l, amt⟩ :: extract_items rest2
        else extract_items rest2
      | none => sameLineStep l ++ extract_items (next :: rest2)
termination_by structural lines => lines

/-- The record assembled by `parse_receipt_text_`. -/
structure Receipt where
  merchant : List Char
  date : List Char
  total : Option Nat
  currency : List Char
  items : List LineItem
deriving DecidableEq

/-- Python `parse_receipt_text_`: normalize, run the four extractors, fill in
the fixed currency. -/
def parse_receipt_text_ (raw : List Char) : Receipt :=
  let lines := normalize_text raw
  { merchant := extract_merchant lines
    date := extract_date lines
    total := extract_total lines
    currency := "EUR".data
    items := extract_items lines }

/-- Statement-side helper for C9: join logical lines with a fixed line
ending (the two encodings of the same logical content). -/
def joinSep (sep : List Char) : List (List Char) → List Char
  | [] => []
  | [p] => p
  | p :: q :: ps => p ++ sep ++ joinSep sep (q :: ps)
termination_by structural ls => ls

/-- Statement-side helper for C3: the line's same-line pattern matches with
amount `0,00` (the one way a non-positive amount can be emitted). -/
def sameLineZeroAmount (l : List Char) : Bool :=
  match itemPriceMatch l with
  | some (_, a) => a == 0
  | none => false

theorem isPrefixOf_cons_of_ne {a b : Char} {as bs : List Char}
    (h : (a == b) = false) : List.isPrefixOf (a :: as) (b :: bs) = false := by
  simp [List.isPrefixOf, h]

theorem isDash_head {c : Char} {cs : List Char}
    (h : isDashLine (c :: cs) = true) :
    c = '-' ∧ ∀ x ∈ cs, x = '-' := by
  simpa [isDashLine] using h

theorem isDash_no_yh {l : List Char} (h : isDashLine l = true) :
    "YHTEENSÄ".data.isPrefixOf l = false := by
  cases l with
  | nil => simp [isDashLine] at h
  | cons c cs =>
    obtain ⟨hc, -⟩ := isDash_head h
    subst hc
    have hy : "YHTEENSÄ".data = 'Y' :: "HTEENSÄ".data := rfl
    rw [hy]
    exact isPrefixOf_cons_of_ne (by decide)

theorem all_dash_no_card {l : List Char} (h : ∀ x ∈ l, x = '-') :
    containsSub "CARD TRANSACTION".data l = false := by
  induction l with
  | nil => decide
  | cons c cs ih =>
    have hc : c = '-' := h c (by simp)
    subst hc
    simp only [containsSub, Bool.or_eq_false_iff]
    refine ⟨?_, ih (fun x hx => h x (by simp [hx]))⟩
    exact isPrefixOf_cons_of_ne (by decide)

theorem isDash_no_card {l : List Char} (h : isDashLine l = true) :
    containsSub "CARD TRANSACTION".data l = false := by
  cases l with
  | nil => decide
  | cons c cs =>
    obtain ⟨hc, hall⟩ := isDash_head h
    subst hc
    exact all_dash_no_card (by simpa using hall)

/-- C4: once the item-scan cursor reaches a line beginning with `YHTEENSÄ`
(case-sensitive) or containing `CARD TRANSACTION`, the scan returns with no
item from that line or any later line; a line consisting solely of dashes is
skipped (cursor advances by 1) and the scan continues. -/
theorem C4_terminators :
    (∀ l rest, "YHTEENSÄ".data.isPrefixOf l = true →
       extract_items (l :: rest) = []) ∧
    (∀ l rest, containsSub "CARD TRANSACTION".data l = true →
       extract_items (l :: rest) = []) ∧
    (∀ l rest, isDashLine l = true →
       extract_items (l :: rest) = extract_items rest) := by
  refine ⟨?_, ?_, ?_⟩
  · intro l rest h
    cases rest <;> simp [extract_items, h]
  · intro l rest h
    cases hY : "YHTEENSÄ".data.isPrefixOf l with
    | true => cases rest <;> simp [extract_items, hY]
    | false =>
      have hD : isDashLine l = false := by
        cases hd : isDashLine l
        · rfl
        · rw [isDash_no_card hd] at h
          cases h
      cases rest <;> simp [extract_items, hY, hD, h]
  · intro l rest h
    have hY := isDash_no_yh h
    cases rest <;> simp [extract_items, hY, h]

/-- Witness for C4 at concrete inputs: a `YHTEENSÄ` line and a
`CARD TRANSACTION` line kill the scan even though the following pair would
match the two-line heuristic; a dash separator line is skipped. -/
theorem C4_terminators_witness :
    extract_items ["YHTEENSÄ 2,39".data, "AAA".data, "1,00".data] = [] ∧
    extract_items ["xx CARD TRANSACTION yy".data, "AAA".data, "1,00".data] = [] ∧
    extract_items ["-----".data, "AAA".data, "1,00".data] =
      extract_items ["AAA".data, "1,00".data] :=
  ⟨C4_terminators.1 _ _ (by decide), C4_terminators.2.1 _ _ (by decide),
   C4_terminators.2.2 _ _ (by decide)⟩

/-- C8: the parser is total and falls back on degenerate input: any text whose
normalization is the empty line sequence (empty or whitespace-only input)
yields the fallback record with empty merchant, empty date, absent total,
fixed currency `EUR`, and no items.  Totality and purity hold by
construction: `parse_receipt_text_` is a total Lean function of the input
text alone. -/
theorem C8_total_fallback (text : List Char) (h : normalize_text text = []) :
    parse_receipt_text_ text =
      { merchant := [], date := [], total := none, currency := "EUR".data,
        items := [] } := by
  simp [parse_receipt_text_, h, extract_merchant, extract_date, extract_total,
    extract_items, dateScan, merchantScan]

/-- Witness for C8: a whitespace-only input produces the fallback record. -/
theorem C8_total_fallback_witness :
    parse_receipt_text_ "  \r\n \t ".data =
      { merchant := [], date := [], total := none, currency := "EUR".data,
        items := [] } :=
  C8_total_fallback _ (by decide)

/-- Counterexample for C1 as stated: `"AB"` followed by the standalone amount
`"1,00"` is neither a transaction code nor a rejected prefix, yet no item is
emitted, because the cleaned name is shorter than 3 characters (the claim
omits the acceptance condition). -/
theorem C1_counterexample :
    standaloneAmountCents (pyStrip "1,00".data) = some 100 ∧
    hasTxnCode (pyStrip "AB".data) = false ∧
    badPrefix5 (cleanName "AB".data) = false ∧
    extract_items ["AB".data, "1,00".data] = [] := by decide

/-- C1 (amended): at a cursor step whose line `N` is not a terminator or
separator and whose next line is exactly a standalone 2-decimal amount `A`,
the classifier emits exactly one item (cleaned name, `A`) when `N` carries no
transaction code, the cleaned name is not a rejected prefix, the cleaned name
has length at least 3, and `A` is positive — and emits nothing from the pair
otherwise; in every case the cursor advances by 2 (the scan resumes after the
amount line). -/
theorem C1_pair_step (N A : List Char) (rest : List (List Char)) (amt : Nat)
    (hA : standaloneAmountCents (pyStrip A) = some amt)
    (hY : "YHTEENSÄ".data.isPrefixOf N = false)
    (hD : isDashLine N = false)
    (hC : containsSub "CARD TRANSACTION".data N = false) :
    extract_items (N :: A :: rest) =
      (if hasTxnCode (pyStrip N) = false ∧ badPrefix5 (cleanName N) = false ∧
          3 ≤ (cleanName N).length ∧ 0 < amt
       then [⟨cleanName N, amt⟩] else []) ++ extract_items rest := by
  cases hT : hasTxnCode (pyStrip N) with
  | true => simp [extract_items, hY, hD, hC, hA, hT]
  | false =>
    cases hP : badPrefix5 (cleanName N) with
    | true => simp [extract_items, hY, hD, hC, hA, hT, hP]
    | false =>
      by_cases hL : 3 ≤ (cleanName N).length
      · by_cases hZ : 0 < amt
        · simp [extract_items, hY, hD, hC, hA, hT, hP, hL, hZ]
        · simp [extract_items, hY, hD, hC, hA, hT, hP, hL, hZ]
      · simp [extract_items, hY, hD, hC, hA, hT, hP, hL]

/-- Witness for C1 at a concrete accepted pair. -/
theorem C1_pair_step_witness :
    extract_items ["Fanta Sitruuna Zero".data, "2,19".data] =
      [⟨"Fanta Sitruuna Zero".data, 219⟩] := by
  rw [C1_pair_step "Fanta Sitruuna Zero".data "2,19".data [] 219
    (by decide) (by decide) (by decide) (by decide)]
  decide

/-- C10: transaction-code rejection is a substring search (`[A-Z]\d{3,}` with
`M\d{6}` as a special case): in the two-line branch a name containing the
pattern anywhere is skipped with no item, in the same-line fallback such a
line contributes no item, and a legitimate-looking description containing the
fragment `E1234` is silently dropped. -/
theorem C10_txn_code_rejection :
    (∀ N A rest amt, standaloneAmountCents (pyStrip A) = some amt →
       "YHTEENSÄ".data.isPrefixOf N = false → isDashLine N = false →
       containsSub "CARD TRANSACTION".data N = false →
       hasTxnCode (pyStrip N) = true →
       extract_items (N :: A :: rest) = extract_items rest) ∧
    (∀ l n a, itemPriceMatch l = some (n, a) → hasTxnCode (pyStrip n) = true →
       sameLineStep l = []) ∧
    (extract_items ["Juusto E1234 Edam".data, "3,50".data] = []) := by
  refine ⟨?_, ?_, by decide⟩
  · intro N A rest amt hA hY hD hC hT
    simp [extract_items, hY, hD, hC, hA, hT]
  · intro l n a hm hT
    simp [sameLineStep, hm, hT]

/-- Witness for C10: the transaction-code line from the source comment is
skipped in the two-line branch, and a same-line fallback line containing a
code fragment contributes nothing. -/
theorem C10_txn_code_rejection_witness :
    extract_items ["K021 M026356/0554".data, "1,00".data] =
      extract_items ([] : List (List Char)) ∧
    sameLineStep "Juusto E1234 Edam 3,50".data = [] :=
  ⟨C10_txn_code_rejection.1 _ _ _ 100 (by decide) (by decide) (by decide)
     (by decide) (by decide),
   C10_txn_code_rejection.2.1 _ "Juusto E1234 Edam ".data 350 (by decide)
     (by decide)⟩

theorem extract_total_skip (pre zs : List (List Char))
    (h : ∀ p ∈ pre, isTotalMarker p = false) :
    extract_total (pre ++ zs) = extract_total zs := by
  induction pre with
  | nil => rfl
  | cons p ps ih =>
    have hp : isTotalMarker p = false := h p (by simp)
    simp only [List.cons_append, extract_total, hp, Bool.false_eq_true,
      if_false]
    exact ih (fun q hq => h q (by simp [hq]))

theorem extract_total_all_none (ls : List (List Char))
    (h : ∀ p ∈ ls, isTotalMarker p = false) : extract_total ls = none := by
  induction ls with
  | nil => rfl
  | cons p ps ih =>
    have hp : isTotalMarker p = false := h p (by simp)
    simp only [extract_total, hp, Bool.false_eq_true, if_false]
    exact ih (fun q hq => h q (by simp [hq]))

/-- C5: `extract_total` skips lines without a marker substring; on the first
marker line it takes the same-line `YHTEENSÄ` amount if present, otherwise
the first standalone amount among the next 4 lines, otherwise it continues
scanning; with no marker anywhere the total is absent; and a line
`YHTEENSÄ 11,62` yields 11.62 (1162 cents) whatever follows it. -/
theorem C5_total_extraction :
    (∀ pre l rest, (∀ p ∈ pre, isTotalMarker p = false) →
       extract_total (pre ++ l :: rest) =
         (if isTotalMarker l then
            match totalSameLine l with
            | some a => some a
            | none =>
              match lookaheadAmount 4 rest with
              | some a => some a
              | none => extract_total rest
          else extract_total rest)) ∧
    (∀ lines, (∀ p ∈ lines, isTotalMarker p = false) →
       extract_total lines = none) ∧
    (∀ rest, extract_total ("YHTEENSÄ 11,62".data :: rest) = some 1162) := by
  refine ⟨?_, ?_, ?_⟩
  · intro pre l rest h
    rw [extract_total_skip pre (l :: rest) h]
    rfl
  · intro lines h
    exact extract_total_all_none lines h
  · intro rest
    have h1 : isTotalMarker "YHTEENSÄ 11,62".data = true := by decide
    have h2 : totalSameLine "YHTEENSÄ 11,62".data = some 1162 := by decide
    simp [extract_total, h1, h2]

/-- Witness for C5: the `YHTEENSÄ 11,62` line wins over a later conflicting
`TOTAL` line, and a marker-free text has no total. -/
theorem C5_total_extraction_witness :
    extract_total ["junk line".data, "YHTEENSÄ 11,62".data,
      "TOTAL 99,99".data] = some 1162 ∧
    extract_total ["no markers here".data] = none := by
  constructor
  · have h := C5_total_extraction.1 ["junk line".data] "YHTEENSÄ 11,62".data
      ["TOTAL 99,99".data] (by decide)
    simp only [List.cons_append, List.nil_append] at h
    rw [h]
    decide
  · exact C5_total_extraction.2.1 _ (by decide)

theorem dateScan_skip (pre zs : List (List Char))
    (h : ∀ p ∈ pre, dateSearch p = none) :
    dateScan (pre ++ zs) = dateScan zs := by
  induction pre with
  | nil => rfl
  | cons p ps ih =>
    have hp : dateSearch p = none := h p (by simp)
    simp only [List.cons_append, dateScan, hp]
    exact ih (fun q hq => h q (by simp [hq]))

theorem dateScan_all_none (ls : List (List Char))
    (h : ∀ p ∈ ls, dateSearch p = none) : dateScan ls = none := by
  induction ls with
  | nil => rfl
  | cons p ps ih =>
    have hp : dateSearch p = none := h p (by simp)
    simp only [dateScan, hp]
    exact ih (fun q hq => h q (by simp [hq]))

/-- C6: `extract_date` scans only the first 20 lines, uses the first
`D{1,2}.M{1,2}.YYYY` match, zero-pads day and month and copies the year
(`formatDate`), returns the empty string when no match occurs in the window,
performs no calendar-validity check, and maps `04.01.2026` to `2026-01-04`
while a token appearing only after line 20 yields the empty string. -/
theorem C6_date_extraction :
    (∀ pre l rest g, pre.length < 20 → (∀ p ∈ pre, dateSearch p = none) →
       dateSearch l = some g →
       extract_date (pre ++ l :: rest) = formatDate g) ∧
    (∀ lines, (∀ p ∈ lines.take 20, dateSearch p = none) →
       extract_date lines = []) ∧
    (extract_date ["foo".data, "Aika: 04.01.2026 12:00".data] =
       "2026-01-04".data) ∧
    (extract_date (List.replicate 20 "x".data ++ ["04.01.2026".data]) = []) ∧
    (extract_date ["31.02.2026".data] = "2026-02-31".data) := by
  refine ⟨?_, ?_, by decide, by decide, by decide⟩
  · intro pre l rest g hlen hpre hl
    unfold extract_date
    have htake : (pre ++ l :: rest).take 20 =
        pre ++ (l :: rest).take (20 - pre.length) := by
      rw [List.take_append_eq_append_take,
        List.take_of_length_le (Nat.le_of_lt hlen)]
    obtain ⟨k, hk⟩ : ∃ k, 20 - pre.length = k + 1 :=
      ⟨20 - pre.length - 1, by omega⟩
    rw [htake, hk, List.take_succ_cons, dateScan_skip pre _ hpre]
    simp [dateScan, hl]
  · intro lines h
    unfold extract_date
    rw [dateScan_all_none _ h]

/-- Witness for C6: a first-match line after a dateless line, and a dateless
window. -/
theorem C6_date_extraction_witness :
    extract_date ["foo".data, "04.01.2026".data] =
      formatDate ("04".data, "01".data, "2026".data) ∧
    extract_date ["no date".data] = [] := by
  constructor
  · have h := C6_date_extraction.1 ["foo".data] "04.01.2026".data []
      ("04".data, "01".data, "2026".data) (by decide) (by decide) (by decide)
    simp only [List.cons_append, List.nil_append] at h
    exact h
  · exact C6_date_extraction.2.1 _ (by decide)

theorem merchantScan_skip (pre zs : List (List Char))
    (h : ∀ p ∈ pre, merchantLineTest p = false) :
    merchantScan (pre ++ zs) = merchantScan zs := by
  induction pre with
  | nil => rfl
  | cons p ps ih =>
    have hp : merchantLineTest p = false := h p (by simp)
    simp only [merchantLineTest, Bool.or_eq_false_iff] at hp
    simp only [List.cons_append, merchantScan, hp.1, hp.2, Bool.false_eq_true,
      if_false]
    exact ih (fun q hq => h q (by simp [hq]))

theorem merchantScan_all_none (ls : List (List Char))
    (h : ∀ p ∈ ls, merchantLineTest p = false) : merchantScan ls = none := by
  induction ls with
  | nil => rfl
  | cons p ps ih =>
    have hp : merchantLineTest p = false := h p (by simp)
    simp only [merchantLineTest, Bool.or_eq_false_iff] at hp
    simp only [merchantScan, hp.1, hp.2, Bool.false_eq_true, if_false]
    exact ih (fun q hq => h q (by simp [hq]))

theorem merchantScan_head (l : List Char) (ls : List (List Char))
    (h : merchantLineTest l = true) : merchantScan (l :: ls) = some l := by
  simp only [merchantLineTest, Bool.or_eq_true] at h
  rcases h with h | h
  · simp [merchantScan, h]
  · cases h1 : containsSub "market".data (pyLower l) with
    | true => simp [merchantScan, h1]
    | false => simp [merchantScan, h1, h]

/-- C7: `extract_merchant` scans only the first 10 lines for a line
containing `market` case-insensitively or entirely upper-case and longer
than 5 characters, returns the first such line cleaned; with no match it
returns the cleaned first line, and the empty sequence gives the empty
string; a qualifying upper-case line 3 beats a non-matching line 1. -/
theorem C7_merchant_extraction :
    (∀ pre l rest, pre.length < 10 → (∀ p ∈ pre, merchantLineTest p = false) →
       merchantLineTest l = true →
       extract_merchant (pre ++ l :: rest) = cleanMerchant l) ∧
    (∀ l0 rest, (∀ p ∈ (l0 :: rest).take 10, merchantLineTest p = false) →
       extract_merchant (l0 :: rest) = cleanMerchant l0) ∧
    (extract_merchant [] = []) ∧
    (extract_merchant ["Receipt Co".data, "foo bar".data, "STORENAME".data] =
       "STORENAME".data) := by
  refine ⟨?_, ?_, rfl, by decide⟩
  · intro pre l rest hlen hpre hl
    unfold extract_merchant
    have htake : (pre ++ l :: rest).take 10 =
        pre ++ (l :: rest).take (10 - pre.length) := by
      rw [List.take_append_eq_append_take,
        List.take_of_length_le (Nat.le_of_lt hlen)]
    obtain ⟨k, hk⟩ : ∃ k, 10 - pre.length = k + 1 :=
      ⟨10 - pre.length - 1, by omega⟩
    rw [htake, hk, List.take_succ_cons, merchantScan_skip pre _ hpre,
      merchantScan_head l _ hl]
  · intro l0 rest h
    unfold extract_merchant
    rw [merchantScan_all_none _ h]

/-- Witness for C7: a `market` line after a non-matching line is selected and
cleaned (postal-code-and-city suffix removed); a match-free list falls back
to its cleaned first line. -/
theorem C7_merchant_extraction_witness :
    extract_merchant ["Receipt Co".data,
      "K-market Töölöntori, 00260 Helsinki".data] =
      "K-market Töölöntori".data ∧
    extract_merchant ["Receipt Co".data, "foo".data] = "Receipt Co".data := by
  constructor
  · have h := C7_merchant_extraction.1 ["Receipt Co".data]
      "K-market Töölöntori, 00260 Helsinki".data [] (by decide) (by decide)
      (by decide)
    simp only [List.cons_append, List.nil_append] at h
    rw [h]
    decide
  · have h := C7_merchant_extraction.2.1 "Receipt Co".data ["foo".data]
      (by decide)
    rw [h]
    decide

theorem badPrefix4_of_badPrefix5 {n : List Char} (h : badPrefix5 n = false) :
    badPrefix4 n = false := by
  simp only [badPrefix5, Bool.or_eq_false_iff] at h
  simp only [badPrefix4, Bool.or_eq_false_iff]
  tauto

theorem sameLineStep_mem {l : List Char} {it : LineItem}
    (h : it ∈ sameLineStep l) :
    ∃ n a, itemPriceMatch l = some (n, a) ∧ it = ⟨pyStrip n, a⟩ ∧
      hasTxnCode (pyStrip n) = false ∧ badPrefix4 (pyStrip n) = false ∧
      3 ≤ (pyStrip n).length := by
  cases hm : itemPriceMatch l with
  | none => simp [sameLineStep, hm] at h
  | some p =>
    obtain ⟨n, a⟩ := p
    simp only [sameLineStep, hm] at h
    cases hT : hasTxnCode (pyStrip n) with
    | true => simp [hT] at h
    | false =>
      simp only [hT, Bool.false_eq_true, if_false] at h
      cases hB : badPrefix4 (pyStrip n) with
      | true => simp [hB] at h
      | false =>
        by_cases hL : 3 ≤ (pyStrip n).length
        · simp [hB, hL] at h
          exact ⟨n, a, rfl, h, hT, hB, hL⟩
        · simp [hB, hL] at h

theorem extract_items_provenance :
    ∀ (n : Nat) (lines : List (List Char)), lines.length ≤ n →
      ∀ it ∈ extract_items lines,
        (∃ l ∈ lines, it ∈ sameLineStep l) ∨
        (badPrefix5 it.name = false ∧ 3 ≤ it.name.length ∧ 0 < it.amount) := by
  intro n
  induction n with
  | zero =>
    intro lines hl it hit
    have h0 : lines = [] := List.eq_nil_of_length_eq_zero (Nat.le_zero.mp hl)
    subst h0
    simp [extract_items] at hit
  | succ n ih =>
    intro lines hl it hit
    cases lines with
    | nil => simp [extract_items] at hit
    | cons l rest =>
      cases rest with
      | nil =>
        cases hY : "YHTEENSÄ".data.isPrefixOf l with
        | true => simp [extract_items, hY] at hit
        | false =>
          cases hD : isDashLine l with
          | true => simp [extract_items, hY, hD] at hit
          | false =>
            cases hC : containsSub "CARD TRANSACTION".data l with
            | true => simp [extract_items, hY, hD, hC] at hit
            | false =>
              refine Or.inl ⟨l, by simp, ?_⟩
              simpa [extract_items, hY, hD, hC] using hit
      | cons next rest2 =>
        have hlen : rest2.length + 2 ≤ n + 1 := by simpa using hl
        cases hY : "YHTEENSÄ".data.isPrefixOf l with
        | true => simp [extract_items, hY] at hit
        | false =>
          cases hD : isDashLine l with
          | true =>
            rw [show extract_items (l :: next :: rest2) =
                extract_items (next :: rest2) from by
              simp [extract_items, hY, hD]] at hit
            rcases ih (next :: rest2) (by simp; omega) it hit with ⟨l2, h2, hm⟩ | hr
            · exact Or.inl ⟨l2, List.mem_cons_of_mem l h2, hm⟩
            · exact Or.inr hr
          | false =>
            cases hC : containsSub "CARD TRANSACTION".data l with
            | true => simp [extract_items, hY, hD, hC] at hit
            | false =>
              cases hS : standaloneAmountCents (pyStrip next) with
              | none =>
                rw [show extract_items (l :: next :: rest2) =
                    sameLineStep l ++ extract_items (next :: rest2) from by
                  simp [extract_items, hY, hD, hC, hS]] at hit
                rcases List.mem_append.mp hit with h1 | h2
                · exact Or.inl ⟨l, by simp, h1⟩
                · rcases ih (next :: rest2) (by simp; omega) it h2 with
                    ⟨l2, hm2, hm⟩ | hr
                  · exact Or.inl ⟨l2, List.mem_cons_of_mem l hm2, hm⟩
                  · exact Or.inr hr
              | some amt =>
                cases hT : hasTxnCode (pyStrip l) with
                | true =>
                  rw [show extract_items (l :: next :: rest2) =
                      extract_items rest2 from by
                    simp [extract_items, hY, hD, hC, hS, hT]] at hit
                  rcases ih rest2 (by omega) it hit with ⟨l2, h2, hm⟩ | hr
                  · exact Or.inl
                      ⟨l2, List.mem_cons_of_mem l (List.mem_cons_of_mem next h2), hm⟩
                  · exact Or.inr hr
                | false =>
                  cases hP : badPrefix5 (cleanName l) with
                  | true =>
                    rw [show extract_items (l :: next :: rest2) =
                        extract_items rest2 from by
                      simp [extract_items, hY, hD, hC, hS, hT, hP]] at hit
                    rcases ih rest2 (by omega) it hit with ⟨l2, h2, hm⟩ | hr
                    · exact Or.inl
                        ⟨l2, List.mem_cons_of_mem l (List.mem_cons_of_mem next h2), hm⟩
                    · exact Or.inr hr
                  | false =>
                    by_cases hG :
                        (decide (3 ≤ (cleanName l).length) && decide (0 < amt)) = true
                    · rw [show extract_items (l :: next :: rest2) =
                          ⟨cleanName l, amt⟩ :: extract_items rest2 from by
                        simp [extract_items, hY, hD, hC, hS, hT, hP, hG]] at hit
                      rcases List.mem_cons.mp hit with heq | h2
                      · subst heq
                        simp only [Bool.and_eq_true, decide_eq_true_eq] at hG
                        exact Or.inr ⟨hP, hG.1, hG.2⟩
                      · rcases ih rest2 (by omega) it h2 with ⟨l2, hm2, hm⟩ | hr
                        · exact Or.inl
                            ⟨l2, List.mem_cons_of_mem l
                              (List.mem_cons_of_mem next hm2), hm⟩
                        · exact Or.inr hr
                    · rw [show extract_items (l :: next :: rest2) =
                          extract_items rest2 from by
                        simp only [extract_items, hY, hD, hC, hS, hT, hP]
                        simp [hG]] at hit
                      rcases ih rest2 (by omega) it hit with ⟨l2, hm2, hm⟩ | hr
                      · exact Or.inl
                          ⟨l2, List.mem_cons_of_mem l
                            (List.mem_cons_of_mem next hm2), hm⟩
                      · exact Or.inr hr

/-- Counterexample for C2 as stated: a lone line `PANTTI 0,20` takes the
same-line fallback, whose rejection tuple omits `PANTTI`, so an item whose
name starts with `PANTTI` is emitted. -/
theorem C2_counterexample :
    extract_items ["PANTTI 0,20".data] = [⟨"PANTTI".data, 20⟩] ∧
    "PANTTI".data.isPrefixOf (pyUpper "PANTTI".data) = true := by decide

/-- C2 (amended): no emitted item name starts, case-insensitively, with
`ALV`, `KORTTI`, `PLUSSA` or `BONUS` (`badPrefix4`), in either branch and at
any position, both for `extract_items` and for the items field of
`parse_receipt_text_`; `PANTTI` is rejected only by the two-line branch and
can appear via the same-line fallback. -/
theorem C2_rejected_prefixes :
    (∀ lines : List (List Char), ∀ it ∈ extract_items lines,
       badPrefix4 it.name = false) ∧
    (∀ text : List Char, ∀ it ∈ (parse_receipt_text_ text).items,
       badPrefix4 it.name = false) := by
  have main : ∀ lines : List (List Char), ∀ it ∈ extract_items lines,
      badPrefix4 it.name = false := by
    intro lines it hit
    rcases extract_items_provenance lines.length lines (Nat.le_refl _) it hit
      with ⟨l, -, hm⟩ | ⟨h5, -, -⟩
    · obtain ⟨n, a, -, heq, -, hb, -⟩ := sameLineStep_mem hm
      rw [heq]
      exact hb
    · exact badPrefix4_of_badPrefix5 h5
  exact ⟨main, fun text => main (normalize_text text)⟩

/-- Witness for C2 at the accepted two-line item of the end-to-end
scenario. -/
theorem C2_rejected_prefixes_witness :
    badPrefix4 (⟨"Fanta Sitruuna Zero".data, 219⟩ : LineItem).name = false :=
  C2_rejected_prefixes.1 ["Fanta Sitruuna Zero".data, "2,19".data]
    ⟨"Fanta Sitruuna Zero".data, 219⟩ (by decide)

/-- Counterexample for C3 as stated: the same-line fallback performs no
positivity check, so the line `Something 0,00` emits an item with amount
`0.00`. -/
theorem C3_counterexample :
    extract_items ["Something 0,00".data] = [⟨"Something".data, 0⟩] := by
  decide

/-- C3 (amended): every amount the two-line branch emits is positive by its
guard, and the same-line fallback only parses `\d+[.,]\d{2}` tokens, so for
any input in which no line same-line-matches with amount `0,00`
(`sameLineZeroAmount`), every emitted amount is strictly positive;
unparsable amounts are never emitted in any case. -/
theorem C3_positive_amounts (lines : List (List Char))
    (h : ∀ l ∈ lines, sameLineZeroAmount l = false) :
    ∀ it ∈ extract_items lines, 0 < it.amount := by
  intro it hit
  rcases extract_items_provenance lines.length lines (Nat.le_refl _) it hit
    with ⟨l, hlmem, hm⟩ | ⟨-, -, hpos⟩
  · obtain ⟨n, a, hm', heq, -, -, -⟩ := sameLineStep_mem hm
    have hz := h l hlmem
    simp only [sameLineZeroAmount, hm', beq_eq_false_iff_ne, ne_eq] at hz
    rw [heq]
    exact Nat.pos_of_ne_zero hz
  · exact hpos

/-- Witness for C3 at the end-to-end scenario lines. -/
theorem C3_positive_amounts_witness : 0 < (219 : Nat) :=
  C3_positive_amounts ["Fanta Sitruuna Zero".data, "2,19".data] (by decide)
    ⟨"Fanta Sitruuna Zero".data, 219⟩ (by decide)

theorem splitLines_ne_nil (l : List Char) : splitLines l ≠ [] := by
  cases l with
  | nil => simp [splitLines]
  | cons c cs =>
    simp only [splitLines]
    by_cases hc : c = '\n'
    · simp [hc]
    · simp only [hc, if_false]
      cases splitLines cs <;> simp

theorem splitLines_append (xs ys : List Char) :
    splitLines (xs ++ '\n' :: ys) = splitLines xs ++ splitLines ys := by
  induction xs with
  | nil => simp [splitLines]
  | cons c cs ih =>
    by_cases hc : c = '\n'
    · subst hc
      simp [splitLines, ih]
    · obtain ⟨h0, t0, hsplit⟩ : ∃ h0 t0, splitLines cs = h0 :: t0 := by
        cases hcs : splitLines cs with
        | nil => exact absurd hcs (splitLines_ne_nil cs)
        | cons a b => exact ⟨a, b, rfl⟩
      simp [splitLines, hc, ih, hsplit]

theorem filtered_split_append (a b : List Char) :
    ((splitLines (a ++ '\n' :: b)).map pyStrip).filter (fun l => !l.isEmpty) =
      ((splitLines a).map pyStrip).filter (fun l => !l.isEmpty) ++
      ((splitLines b).map pyStrip).filter (fun l => !l.isEmpty) := by
  rw [splitLines_append]
  simp [List.filter_append]

theorem filtered_split_lf (b : List Char) :
    ((splitLines ('\n' :: b)).map pyStrip).filter (fun l => !l.isEmpty) =
      ((splitLines b).map pyStrip).filter (fun l => !l.isEmpty) := by
  simp [splitLines, pyStrip]

theorem normalize_join (parts : List (List Char)) :
    normalize_text (joinSep "\r\n".data parts) =
    normalize_text (joinSep "\n".data parts) := by
  induction parts with
  | nil => rfl
  | cons p ps ih =>
    cases ps with
    | nil => rfl
    | cons q ps2 =>
      show normalize_text (p ++ "\r\n".data ++ joinSep "\r\n".data (q :: ps2)) =
        normalize_text (p ++ "\n".data ++ joinSep "\n".data (q :: ps2))
      have h1 : "\r\n".data = ['\r', '\n'] := rfl
      have h2 : "\n".data = ['\n'] := rfl
      rw [h1, h2]
      unfold normalize_text at ih ⊢
      simp only [List.map_append, List.append_assoc, List.cons_append,
        List.nil_append, List.map_cons]
      have e1 : (if True then '\n' else '\r') = '\n' := rfl
      have e2 : (if '\n' = '\r' then '\n' else '\n') = '\n' := rfl
      rw [e1, e2, filtered_split_append, filtered_split_append,
        filtered_split_lf, ih]

/-- C9: parsing the same logical content joined with CRLF line endings yields
exactly the same structured record as with LF line endings: the normalizer
turns every carriage return into a line separator and drops the resulting
empty lines, and every extractor consumes only the normalized sequence. -/
theorem C9_line_ending_invariance (parts : List (List Char)) :
    parse_receipt_text_ (joinSep "\r\n".data parts) =
    parse_receipt_text_ (joinSep "\n".data parts) := by
  unfold parse_receipt_text_
  rw [normalize_join]
